import Mathlib

/-!
Verification of the interaction state machine of `canvas_classes.py`
(repository rdf4095/canvas).

The file shallowly embeds the two canvas controllers of the source:

* `DrawC` models `DrawCanvas` in `lines` (polyline) mode: the pointer
  tracking state inherited from `MyCanvas` (`firstx/firsty`, `startx/starty`,
  `previousx/previousy`, `points`) together with the line bookkeeping
  (`line_count`, `linetags`, `last_line`, `last_shape`) and the rendered
  line segments of the canvas.

* `ShapeC` models `ShapeCanvas`: the shape registry (`objlist`), the
  rendered primitives, the selection state (`selected`, `multi_selected`)
  and the keyboard/mouse operations (delete, duplicate, drag, nudge,
  resize, recolor, multi-select toggle).

Python exceptions (StopIteration from `next(...)` without default,
ValueError from `list.remove`, IndexError/NameError) are modelled by
`Option`-returning functions: `none` means the handler raised.  Rendered
text readouts (`report_center`, `report_cursor_posn`) and the timed
highlight flash only touch visual text/fill and are not part of any claim;
they are omitted from the state.  Canvas coordinates are modelled as
rationals (`Rat`); the float literals 1.01/0.99 of `resize_shape` are
modelled as the rationals 101/100 and 99/100.  The Tk drawing surface's
nearest-item lookup (`find_closest`) is an external capability of the
toolkit; handlers that use it take the lookup result as a parameter.
-/

/-- A pixel coordinate pair (`event.x`, `event.y`). -/
structure Point where
  x : Int
  y : Int
deriving DecidableEq, Repr

namespace DrawC

/-- A rendered line segment: `create_line(x1, y1, x2, y2, tags='line<n>')`.
The numeric part of the tag is kept as `tag`. -/
structure Segment where
  tag : Nat
  x1 : Int
  y1 : Int
  x2 : Int
  y2 : Int
deriving DecidableEq, Repr

/-- State of a `DrawCanvas` in `lines` mode: the `MyCanvas` pointer fields
plus the line bookkeeping, and the rendered segments of the canvas. -/
structure DrawState where
  firstx : Int
  firsty : Int
  startx : Int
  starty : Int
  previousx : Int
  previousy : Int
  points : List Point
  line_count : Nat
  linetags : List Nat
  last_line : List Nat
  last_shape : List Nat
  canvas : List Segment
deriving DecidableEq, Repr

/-- The state of a freshly constructed canvas (all coordinates 0, all
lists empty), as set in `MyCanvas.__init__` / `DrawCanvas.__init__`. -/
def init : DrawState :=
  { firstx := 0, firsty := 0, startx := 0, starty := 0
    previousx := 0, previousy := 0, points := []
    line_count := 0, linetags := [], last_line := [], last_shape := []
    canvas := [] }

/-- `MyCanvas.set_start`: record a click.  If `(firstx, firsty)` is the
`(0, 0)` sentinel the click opens a sequence (`first = previous = event`),
otherwise `previous` shifts to the old `start`.  `start` always becomes the
click point, which is appended to `points`. -/
def set_start (s : DrawState) (ev : Point) : DrawState :=
  let s1 :=
    if s.firstx = 0 ∧ s.firsty = 0 then
      { s with firstx := ev.x, firsty := ev.y
               previousx := ev.x, previousy := ev.y }
    else
      { s with previousx := s.startx, previousy := s.starty }
  { s1 with startx := ev.x, starty := ev.y, points := s1.points ++ [ev] }

/-- `DrawCanvas.draw_line`: on a left click in `lines` mode.  From the
sentinel state the click only records the start.  Otherwise a segment from
`(startx, starty)` to the click point is created and tagged; if the click
carried exactly the Control modifier (`event.state == 4`) the run is ended
open: `first` is reset to the sentinel, the run's tags move to
`last_shape`, and `points`/`linetags` are cleared. -/
def draw_line (s : DrawState) (ev : Point) (state : Int) : DrawState :=
  if s.firstx = 0 ∧ s.firsty = 0 then
    set_start s ev
  else
    let cnt := s.line_count + 1
    let s1 := { s with
      line_count := cnt
      canvas := s.canvas ++ [(⟨cnt, s.startx, s.starty, ev.x, ev.y⟩ : Segment)]
      linetags := s.linetags ++ [cnt]
      last_line := s.last_line ++ [cnt] }
    let s2 := set_start s1 ev
    if state = 4 then
      { s2 with firstx := 0, firsty := 0
                last_shape := s2.linetags
                points := []
                linetags := [] }
    else s2

/-- `DrawCanvas.connect_lines`: the `Double-1` handler.  Draw a segment
from the click point back to `(firstx, firsty)`, then reset `first` to the
sentinel, move the run's tags into `last_shape`, clear `points` and
`linetags`. -/
def connect_lines (s : DrawState) (ev : Point) : DrawState :=
  let cnt := s.line_count + 1
  let s1 := { s with
    line_count := cnt
    canvas := s.canvas ++ [(⟨cnt, ev.x, ev.y, s.firstx, s.firsty⟩ : Segment)]
    linetags := s.linetags ++ [cnt] }
  { s1 with firstx := 0, firsty := 0
            last_shape := s1.linetags
            points := []
            linetags := [] }

/-- `DrawCanvas.undo_line`: the `Button-3` handler.  No-op from the
sentinel state.  Otherwise delete the last tagged segment (if any) and pop
the last recorded point; if points remain, `start` becomes the new last
point.  `firstx`/`firsty` are never written. -/
def undo_line (s : DrawState) : DrawState :=
  if s.firstx = 0 ∧ s.firsty = 0 then s
  else
    let s1 :=
      match s.linetags.getLast? with
      | some t =>
          { s with canvas := s.canvas.filter (fun seg => seg.tag ≠ t)
                   linetags := s.linetags.dropLast }
      | none => s
    if s1.points.isEmpty then s1
    else
      let pts := s1.points.dropLast
      let s2 := { s1 with points := pts }
      match pts.getLast? with
      | some p => { s2 with startx := p.x, starty := p.y }
      | none => s2

/-- Input events of a `lines`-mode canvas.  A physical double-click is a
press (handled by `draw_line`, the `Button-1` binding) followed by the
`Double-1` event (handled by `connect_lines`), as described in the
docstring of `connect_lines`. -/
inductive Ev where
  | click : Point → Int → Ev
  | dbl : Point → Ev
  | rclick : Ev
deriving DecidableEq, Repr

/-- Dispatch one event to its bound handler. -/
def step (s : DrawState) : Ev → DrawState
  | .click p st => draw_line s p st
  | .dbl p => connect_lines (draw_line s p 0) p
  | .rclick => undo_line s

/-- Run a sequence of events from a state. -/
def run (s : DrawState) (evs : List Ev) : DrawState := evs.foldl step s

end DrawC

namespace DrawC

/-- C1: in lines mode, clicks at (0,0), (10,0), (10,10) followed by a
double-click at the last point leave exactly 3 line segments on the
canvas, and afterwards `points` (the point history) and `linetags` (the
open-run tag list) are empty and `first` is back at the (0,0) sentinel. -/
theorem C1_polyline_close_state :
    (run init [.click ⟨0,0⟩ 0, .click ⟨10,0⟩ 0, .click ⟨10,10⟩ 0,
               .dbl ⟨10,10⟩]).canvas.length = 3 ∧
    (run init [.click ⟨0,0⟩ 0, .click ⟨10,0⟩ 0, .click ⟨10,10⟩ 0,
               .dbl ⟨10,10⟩]).points = [] ∧
    (run init [.click ⟨0,0⟩ 0, .click ⟨10,0⟩ 0, .click ⟨10,10⟩ 0,
               .dbl ⟨10,10⟩]).linetags = [] ∧
    (run init [.click ⟨0,0⟩ 0, .click ⟨10,0⟩ 0, .click ⟨10,10⟩ 0,
               .dbl ⟨10,10⟩]).firstx = 0 ∧
    (run init [.click ⟨0,0⟩ 0, .click ⟨10,0⟩ 0, .click ⟨10,10⟩ 0,
               .dbl ⟨10,10⟩]).firsty = 0 := by
  decide

/-- C2 counterexample: for the clicks (0,0), (10,0), (10,10) with Control
held on the last click, the canvas holds exactly 1 segment, not 2: the
click at (0,0) is absorbed by the (0,0) sentinel check of `set_start`, so
the run effectively begins at (10,0). -/
theorem C2_control_end_counterexample :
    ¬ ((run init [.click ⟨0,0⟩ 0, .click ⟨10,0⟩ 0,
                  .click ⟨10,10⟩ 4]).canvas.length = 2) := by
  decide

/-- C2 amended: for a click sequence starting at a point other than the
(0,0) sentinel, e.g. (1,1), (10,0), (10,10) with Control held on the last
click, exactly 2 segments exist ((1,1)-(10,0) and (10,0)-(10,10), so no
closing segment back to the first point is drawn), the run's tags are
moved into `last_shape`, and `points`/`linetags` are cleared with `first`
back at the sentinel. -/
theorem C2_control_end_amended :
    (run init [.click ⟨1,1⟩ 0, .click ⟨10,0⟩ 0, .click ⟨10,10⟩ 4]).canvas
      = [⟨1, 1, 1, 10, 0⟩, ⟨2, 10, 0, 10, 10⟩] ∧
    (run init [.click ⟨1,1⟩ 0, .click ⟨10,0⟩ 0, .click ⟨10,10⟩ 4]).last_shape
      = [1, 2] ∧
    (run init [.click ⟨1,1⟩ 0, .click ⟨10,0⟩ 0, .click ⟨10,10⟩ 4]).linetags
      = [] ∧
    (run init [.click ⟨1,1⟩ 0, .click ⟨10,0⟩ 0, .click ⟨10,10⟩ 4]).points
      = [] ∧
    (run init [.click ⟨1,1⟩ 0, .click ⟨10,0⟩ 0, .click ⟨10,10⟩ 4]).firstx
      = 0 ∧
    (run init [.click ⟨1,1⟩ 0, .click ⟨10,0⟩ 0, .click ⟨10,10⟩ 4]).firsty
      = 0 := by
  decide

/-- C3 counterexample: from a fresh canvas, one click at (5,5) followed by
an undo leaves `points` empty but `(firstx, firsty) = (5,5)`, not the
(0,0) sentinel: `undo_line` does not reset `first` when it empties the
point history. -/
theorem C3_undo_counterexample :
    (undo_line (draw_line init ⟨5,5⟩ 0)).points = [] ∧
    ¬ ((undo_line (draw_line init ⟨5,5⟩ 0)).firstx = 0 ∧
       (undo_line (draw_line init ⟨5,5⟩ 0)).firsty = 0) := by
  decide

/-- C3 amended: `first` is reset to the (0,0) sentinel when a polyline
closes via double-click (`connect_lines`) and when Control terminates an
open run (`draw_line` with `event.state == 4` from a non-sentinel state);
but `undo_line` never modifies `firstx`/`firsty`, even when it empties the
point history. -/
theorem C3_sentinel_reset (s s2 : DrawState) (ev ev2 : Point)
    (h : ¬(s2.firstx = 0 ∧ s2.firsty = 0)) :
    ((connect_lines s ev).firstx = 0 ∧ (connect_lines s ev).firsty = 0) ∧
    ((draw_line s2 ev2 4).firstx = 0 ∧ (draw_line s2 ev2 4).firsty = 0) ∧
    ((undo_line s).firstx = s.firstx ∧ (undo_line s).firsty = s.firsty) := by
  refine ⟨⟨rfl, rfl⟩, ?_, ?_⟩
  · simp [draw_line, if_neg h]
  · unfold undo_line
    split
    · exact ⟨rfl, rfl⟩
    · split <;> dsimp only <;> split <;> (try split) <;> exact ⟨rfl, rfl⟩

/-- C3 witness: the amended statement applied at concrete states. -/
theorem C3_sentinel_reset_witness :
    ((connect_lines init ⟨3,4⟩).firstx = 0 ∧
     (connect_lines init ⟨3,4⟩).firsty = 0) ∧
    ((draw_line (draw_line init ⟨5,5⟩ 0) ⟨7,7⟩ 4).firstx = 0 ∧
     (draw_line (draw_line init ⟨5,5⟩ 0) ⟨7,7⟩ 4).firsty = 0) ∧
    ((undo_line init).firstx = init.firstx ∧
     (undo_line init).firsty = init.firsty) :=
  C3_sentinel_reset init (draw_line init ⟨5,5⟩ 0) ⟨3,4⟩ ⟨7,7⟩ (by decide)

/-- C10 counterexample: with an active run begun at (5,5), a click at
(0,0) does not leave `(firstx, firsty)` at (0,0) and it does draw a
segment, refuting the universal reading of the claim. -/
theorem C10_sentinel_counterexample :
    ¬ (((draw_line (draw_line init ⟨5,5⟩ 0) ⟨0,0⟩ 0).firstx,
        (draw_line (draw_line init ⟨5,5⟩ 0) ⟨0,0⟩ 0).firsty) = (0, 0)) ∧
    (draw_line (draw_line init ⟨5,5⟩ 0) ⟨0,0⟩ 0).canvas.length
      = (draw_line init ⟨5,5⟩ 0).canvas.length + 1 := by
  decide

/-- C10 amended: the sentinel is the literal coordinate (0,0), but only
for the inactive state: when `(firstx, firsty) = (0,0)`, a click at (0,0)
leaves `first` equal to (0,0) and in lines mode only records the point
(`draw_line` reduces to `set_start`, drawing nothing), so a run whose
first click is at (0,0) behaves as if no sequence had started.  During an
active run (`first` not the sentinel) a click at (0,0) is an ordinary
point: it draws a segment and leaves `first` unchanged. -/
theorem C10_sentinel_amended (s t : DrawState) (st : Int)
    (hs : s.firstx = 0 ∧ s.firsty = 0)
    (ht : ¬(t.firstx = 0 ∧ t.firsty = 0)) :
    ((set_start s ⟨0,0⟩).firstx = 0 ∧ (set_start s ⟨0,0⟩).firsty = 0) ∧
    draw_line s ⟨0,0⟩ st = set_start s ⟨0,0⟩ ∧
    ((draw_line t ⟨0,0⟩ 0).canvas.length = t.canvas.length + 1 ∧
     (draw_line t ⟨0,0⟩ 0).firstx = t.firstx ∧
     (draw_line t ⟨0,0⟩ 0).firsty = t.firsty) := by
  refine ⟨?_, ?_, ?_⟩
  · simp [set_start, if_pos hs]
  · simp only [draw_line, if_pos hs]
  · have h4 : ¬ ((0 : Int) = 4) := by decide
    simp [draw_line, set_start, if_neg ht, if_neg h4]

/-- C10 witness: the amended statement applied at concrete states. -/
theorem C10_sentinel_amended_witness :
    ((set_start init ⟨0,0⟩).firstx = 0 ∧ (set_start init ⟨0,0⟩).firsty = 0) ∧
    draw_line init ⟨0,0⟩ 0 = set_start init ⟨0,0⟩ ∧
    ((draw_line (draw_line init ⟨5,5⟩ 0) ⟨0,0⟩ 0).canvas.length
       = (draw_line init ⟨5,5⟩ 0).canvas.length + 1 ∧
     (draw_line (draw_line init ⟨5,5⟩ 0) ⟨0,0⟩ 0).firstx
       = (draw_line init ⟨5,5⟩ 0).firstx ∧
     (draw_line (draw_line init ⟨5,5⟩ 0) ⟨0,0⟩ 0).firsty
       = (draw_line init ⟨5,5⟩ 0).firsty) :=
  C10_sentinel_amended init (draw_line init ⟨5,5⟩ 0) 0 (by decide) (by decide)

end DrawC

namespace ShapeC

/-- A registry record: `Shape.__init__(id, center, lc)`.  `center` is the
mutable logical center, `linecolor` the registry color. -/
structure Shape where
  id : Nat
  center : Int × Int
  linecolor : String
deriving DecidableEq, Repr

/-- Bounding-box coordinates of a rendered primitive (x1, y1, x2, y2), as
returned/accepted by the canvas `coords` call.  Rationals stand in for the
toolkit's floats; all modelled mutations are exact. -/
structure Coords where
  a : Rat
  b : Rat
  c : Rat
  d : Rat
deriving DecidableEq, Repr

/-- A rendered primitive on the `ShapeCanvas`: its toolkit id, its kind
tag (first tag: oval/rectangle/arc), its instance tag (second tag), its
bounding box and its outline color. -/
structure Item where
  id : Nat
  kind : String
  tagname : String
  coords : Coords
  outline : String
deriving DecidableEq, Repr

/-- State of a `ShapeCanvas`: the inherited `MyCanvas` pointer fields plus
motion tracking, the current line color, shape tags, the next shape kind,
the selection state, the registry `objlist`, the rendered `items`, and the
toolkit's id allocator (`nextId`, the id the next created primitive will
receive). -/
structure ShapeState where
  firstx : Int
  firsty : Int
  startx : Int
  starty : Int
  previousx : Int
  previousy : Int
  points : List Point
  motionx : Int
  motiony : Int
  linecolor : String
  shapetags : List String
  next_shape : String
  selected : Option Nat
  multi_selected : List Nat
  objlist : List Shape
  items : List Item
  nextId : Nat
deriving DecidableEq, Repr

/-- A freshly constructed `ShapeCanvas` (toolkit item ids start at 1). -/
def initS : ShapeState :=
  { firstx := 0, firsty := 0, startx := 0, starty := 0
    previousx := 0, previousy := 0, points := []
    motionx := 0, motiony := 0, linecolor := "black"
    shapetags := [], next_shape := "oval", selected := none
    multi_selected := [], objlist := [], items := [], nextId := 1 }

/-- `MyCanvas.set_start`, inherited by `ShapeCanvas` (same logic as
`DrawC.set_start`, on the shape-canvas state). -/
def set_start (s : ShapeState) (ev : Point) : ShapeState :=
  let s1 :=
    if s.firstx = 0 ∧ s.firsty = 0 then
      { s with firstx := ev.x, firsty := ev.y
               previousx := ev.x, previousy := ev.y }
    else
      { s with previousx := s.startx, previousy := s.starty }
  { s1 with startx := ev.x, starty := ev.y, points := s1.points ++ [ev] }

/-- Default per-kind half-widths (`oval_width` etc. in `__init__`). -/
def oval_width : Int := 20
def oval_height : Int := 20
def rect_width : Int := 20
def rect_height : Int := 20
def arc_width : Int := 30
def arc_height : Int := 25

/-- `ShapeCanvas.calc_location`: bounding box of the next shape, centered
on `(startx, starty)` with the per-kind half-sizes; `(0, 0, 0, 0)` for an
unknown kind (the source leaves `start, end = 0, 0`). -/
def calc_location (s : ShapeState) (shape : String) : Coords :=
  match shape with
  | "oval" =>
      ⟨(s.startx - oval_width : Int), (s.starty - oval_height : Int),
       (s.startx + oval_width : Int), (s.starty + oval_height : Int)⟩
  | "rectangle" =>
      ⟨(s.startx - rect_width : Int), (s.starty - rect_height : Int),
       (s.startx + rect_width : Int), (s.starty + rect_height : Int)⟩
  | "arc" =>
      ⟨(s.startx - arc_width : Int), (s.starty - arc_height : Int),
       (s.startx + arc_width : Int), (s.starty + arc_height : Int)⟩
  | _ => ⟨0, 0, 0, 0⟩

/-- `ShapeCanvas.create_shape`: create a primitive of the given kind at
`calc_location`, tagged `[shape, tag]`, with the given outline color.
Returns the new id (`None` for an unknown kind, in which case nothing is
created). -/
def create_shape (s : ShapeState) (shape : String) (linecolor : String)
    (tag : String) : Option Nat × ShapeState :=
  match shape with
  | "oval" =>
      let it : Item := ⟨s.nextId, "oval", tag, calc_location s "oval", linecolor⟩
      (some s.nextId, { s with items := s.items ++ [it], nextId := s.nextId + 1 })
  | "rectangle" =>
      let it : Item :=
        ⟨s.nextId, "rectangle", tag, calc_location s "rectangle", linecolor⟩
      (some s.nextId, { s with items := s.items ++ [it], nextId := s.nextId + 1 })
  | "arc" =>
      let it : Item := ⟨s.nextId, "arc", tag, calc_location s "arc", linecolor⟩
      (some s.nextId, { s with items := s.items ++ [it], nextId := s.nextId + 1 })
  | _ => (none, s)

/-- `ShapeCanvas.setup_shape`: the `Button-1` handler.  Record the click,
create the next shape, register it (center = click point, color = the
canvas line color), select it and clear the multi-selection. -/
def setup_shape (s : ShapeState) (ev : Point) : ShapeState :=
  let s0 := set_start s ev
  let this_tag := s0.next_shape ++ toString (s0.shapetags.length + 1)
  match create_shape s0 s0.next_shape s0.linecolor this_tag with
  | (none, s1) => s1
  | (some id1, s1) =>
      { s1 with
        shapetags := s1.shapetags ++ [this_tag]
        selected := some id1
        multi_selected := []
        motionx := s1.startx, motiony := s1.starty
        objlist := s1.objlist ++
          [(⟨id1, (s1.startx, s1.starty), s1.linecolor⟩ : Shape)] }

/-- Remove the first registry record with the given id.
Models `whichone = next((obj for obj in objlist if obj.id == item), None)`
followed by `objlist.remove(whichone)`: `none` means `whichone` was `None`
and `list.remove` raised `ValueError`. -/
def objRemove (l : List Shape) (i : Nat) : Option (List Shape) :=
  match l with
  | [] => none
  | o :: rest =>
      if o.id = i then some rest
      else (objRemove rest i).map (fun r => o :: r)

/-- The canvas `delete` call: remove every rendered primitive with the
given id. -/
def canvasDelete (items : List Item) (i : Nat) : List Item :=
  items.filter (fun it => it.id ≠ i)

/-- The deletion loop of `handle_key` case Control+'x' over a list of ids:
for each id, delete its primitive and remove its registry record
(raising, i.e. `none`, if the id has no registry record). -/
def deleteIds : ShapeState → List Nat → Option ShapeState
  | s, [] => some s
  | s, i :: rest =>
      match objRemove s.objlist i with
      | none => none
      | some l =>
          deleteIds { s with objlist := l, items := canvasDelete s.items i } rest

/-- `ShapeCanvas.handle_key`, case Control+'x' (delete).  If
`multi_selected` is non-empty, delete every multi-selected id; otherwise
delete `selected` alone (`selected = None` makes the registry lookup
produce `None` and `objlist.remove(None)` raise).  Afterwards, if the
registry is non-empty, `selected` becomes the last remaining entry's id;
otherwise `selected` is left untouched. -/
def handle_delete (s : ShapeState) : Option ShapeState :=
  let afterDel : Option ShapeState :=
    if s.multi_selected ≠ [] then
      deleteIds s s.multi_selected
    else
      match s.selected with
      | none => none
      | some i =>
          let s1 := { s with items := canvasDelete s.items i }
          (objRemove s1.objlist i).map (fun l => { s1 with objlist := l })
  afterDel.map (fun s1 =>
    match s1.objlist.getLast? with
    | some o => { s1 with selected := some o.id }
    | none => s1)

/-- Bounding box of the rendered primitive with the given id
(the canvas `coords(id)` read; `none` models the empty list returned for
a missing item). -/
def coordsOf (items : List Item) (i : Nat) : Option Coords :=
  (items.find? (fun it => it.id = i)).map (fun it => it.coords)

/-- Add a constant to every bounding-box coordinate
(`[n + 20 for n in coords]`). -/
def coordsPlus (c : Coords) (k : Rat) : Coords :=
  ⟨c.a + k, c.b + k, c.c + k, c.d + k⟩

/-- The canvas `coords(id, new)` write: set the bounding box of the
primitive with the given id. -/
def setCoords (items : List Item) (i : Nat) (c : Coords) : List Item :=
  items.map (fun it => if it.id = i then { it with coords := c } else it)

/-- `ShapeCanvas.handle_key`, case Control+'d' (duplicate).  Create a new
primitive of the selected shape's kind with the selected shape's registry
color, place it at the selected shape's bounding box shifted by +20 on
every coordinate — shifted by +40 instead if that target exactly matches
the bounding box of the most recently created registry entry — and append
a registry record at the selected shape's center plus (20,20) (resp.
(40,40)) with the canvas line color.  `none` models the exceptions raised
when nothing is selected or the selected id has no registry record. -/
def handle_duplicate (s : ShapeState) : Option ShapeState :=
  match s.selected with
  | none => none
  | some the_id =>
      match s.items.find? (fun it => it.id = the_id) with
      | none => none
      | some it =>
          let prev_shape := it.kind
          match s.objlist.find? (fun o => o.id = the_id) with
          | none => none
          | some prev_obj =>
              match create_shape s prev_shape prev_obj.linecolor "oval2" with
              | (none, _) => none
              | (some newid, s1) =>
                  match coordsOf s1.items the_id with
                  | none => none
                  | some coords0 =>
                      let coords_new := coordsPlus coords0 20
                      match s1.objlist.getLast? with
                      | none => none
                      | some last =>
                          let collide :=
                            coordsOf s1.items last.id = some coords_new
                          let coords_fin :=
                            if collide then coordsPlus coords_new 20
                            else coords_new
                          let newsize : Int × Int :=
                            if collide then
                              (prev_obj.center.1 + 40, prev_obj.center.2 + 40)
                            else
                              (prev_obj.center.1 + 20, prev_obj.center.2 + 20)
                          let s2 := { s1 with
                            items := setCoords s1.items newid coords_fin }
                          some { s2 with objlist := s2.objlist ++
                            [(⟨newid, newsize, s.linecolor⟩ : Shape)] }

/-- Sign of the pointer delta: `+1`/`-1`/`0` per axis
(`if event.x > previousx: dx = shift; if event.x < previousx: dx = -shift`). -/
def sign_step (cur prev : Int) : Int :=
  if cur > prev then 1 else if cur < prev then -1 else 0

/-- The unit step computed by `drag_shape` from the pointer position
versus `(previousx, previousy)`; the constrained variant suppresses the
smaller-magnitude axis with a 1-pixel hysteresis band. -/
def dragStep (s : ShapeState) (ev : Point) (constrain : Bool) : Int × Int :=
  if constrain then
    let xd := (ev.x - s.previousx).natAbs
    let yd := (ev.y - s.previousy).natAbs
    ((if xd > yd + 1 then sign_step ev.x s.previousx else 0),
     (if yd > xd + 1 then sign_step ev.y s.previousy else 0))
  else
    (sign_step ev.x s.previousx, sign_step ev.y s.previousy)

/-- Shift a rendered primitive's bounding box by a pixel delta (the canvas
`move` call). -/
def itemShift (it : Item) (dx dy : Int) : Item :=
  { it with coords := ⟨it.coords.a + dx, it.coords.b + dy,
                       it.coords.c + dx, it.coords.d + dy⟩ }

/-- `move(id, dx, dy)`: shift every primitive with the given id. -/
def moveItem (items : List Item) (i : Nat) (dx dy : Int) : List Item :=
  items.map (fun it => if it.id = i then itemShift it dx dy else it)

/-- The multi-selection move loop of `drag_shape`:
`for item in multi_selected: self.move(item, dx, dy)`. -/
def moveIds (items : List Item) (ids : List Nat) (dx dy : Int) : List Item :=
  ids.foldl (fun acc i => moveItem acc i dx dy) items

/-- Update the first registry record with the given id.  Models
`whichone = next(n for n in objlist if n.id == selected)` (StopIteration,
i.e. `none`, if absent) followed by a mutation of that record. -/
def updFirst (l : List Shape) (i : Nat) (f : Shape → Shape) :
    Option (List Shape) :=
  match l with
  | [] => none
  | o :: rest =>
      if o.id = i then some (f o :: rest)
      else (updFirst rest i f).map (fun r => o :: r)

/-- Shift a registry record's center by a pixel delta
(`whichone.center = list(sum(n) for n in zip(whichone.center, (dx, dy)))`). -/
def centerShift (o : Shape) (dx dy : Int) : Shape :=
  { o with center := (o.center.1 + dx, o.center.2 + dy) }

/-- `ShapeCanvas.drag_shape`: guard on no selection, compute the unit step
from the pointer delta, advance `previous`, move every multi-selected
primitive (or the selected one), then update the *selected* shape's
registry center by the step.  `none` models the StopIteration / IndexError
raised when the selected id has no registry record or no rendered item. -/
def drag_shape (s : ShapeState) (ev : Point) (constrain : Bool) :
    Option ShapeState :=
  match s.selected with
  | none => some s
  | some sel =>
      if s.objlist.any (fun o => o.id = sel) then
        let d := dragStep s ev constrain
        let s1 := { s with previousx := ev.x, previousy := ev.y }
        let s2 :=
          if s1.multi_selected ≠ [] then
            { s1 with items := moveIds s1.items s1.multi_selected d.1 d.2 }
          else
            { s1 with items := moveItem s1.items sel d.1 d.2 }
        if s2.items.any (fun it => it.id = sel) then
          (updFirst s2.objlist sel (fun o => centerShift o d.1 d.2)).map
            (fun l => { s2 with objlist := l })
        else none
      else none

/-- The arrow-key to unit-step mapping of `nudge_location`
(Up/Down/Left/Right, anything else falls through to `return`). -/
def keyDelta (key : String) : Option (Int × Int) :=
  match key with
  | "Up" => some (0, -1)
  | "Down" => some (0, 1)
  | "Left" => some (-1, 0)
  | "Right" => some (1, 0)
  | _ => none

/-- The multi-selection loop of `nudge_location`:
`for n, item in enumerate(multi_selected): move(item); objlist[n].center += d`
— note the source indexes `objlist` by the *position* `n` of the id inside
`multi_selected`.  `none` models the IndexError when `objlist` is shorter
than `multi_selected`. -/
def nudgeMultiLoop : ShapeState → Nat → List Nat → Int → Int →
    Option ShapeState
  | s, _, [], _, _ => some s
  | s, n, i :: rest, dx, dy =>
      let s1 := { s with items := moveItem s.items i dx dy }
      match s1.objlist[n]? with
      | none => none
      | some o =>
          nudgeMultiLoop
            { s1 with objlist := s1.objlist.set n (centerShift o dx dy) }
            (n + 1) rest dx dy

/-- `ShapeCanvas.nudge_location`: guard on no selection, map the key
symbol to a unit step, move the multi-selected primitives (updating
`objlist` by position) or the selected primitive, then update the selected
shape's registry center by the step. -/
def nudge_location (s : ShapeState) (key : String) : Option ShapeState :=
  match s.selected with
  | none => some s
  | some sel =>
      match keyDelta key with
      | none => some s
      | some d =>
          let s1 :=
            if s.multi_selected ≠ [] then
              nudgeMultiLoop s 0 s.multi_selected d.1 d.2
            else
              some { s with items := moveItem s.items sel d.1 d.2 }
          s1.bind (fun t =>
            (updFirst t.objlist sel (fun o => centerShift o d.1 d.2)).map
              (fun l => { t with objlist := l }))

/-- The per-side bounding-box deltas of `nudge_size`: Up grows the box by
one pixel on each side, Down shrinks it; any other key leaves the local
variables unbound (`none` models the NameError). -/
def sizeDelta (key : String) : Option (Int × Int × Int × Int) :=
  if key = "Up" then some (-1, -1, 1, 1)
  else if key = "Down" then some (1, 1, -1, -1)
  else none

/-- The loop of `nudge_size` over the targeted ids: read the primitive's
box (`none` models the IndexError on a missing item), apply the per-side
deltas, write it back. -/
def nudgeSizeLoop : ShapeState → List Nat → String → Option ShapeState
  | s, [], _ => some s
  | s, i :: rest, key =>
      match s.items.find? (fun it => it.id = i) with
      | none => none
      | some _ =>
          match sizeDelta key with
          | none => none
          | some dzs =>
              nudgeSizeLoop
                { s with items := s.items.map (fun it =>
                    if it.id = i then
                      { it with coords := ⟨it.coords.a + dzs.1,
                          it.coords.b + dzs.2.1,
                          it.coords.c + dzs.2.2.1,
                          it.coords.d + dzs.2.2.2⟩ }
                    else it) }
                rest key

/-- `ShapeCanvas.nudge_size`: guard on no selection, then grow/shrink the
bounding box of every multi-selected primitive, or of the selected one. -/
def nudge_size (s : ShapeState) (key : String) : Option ShapeState :=
  match s.selected with
  | none => some s
  | some sel =>
      let objids := if s.multi_selected ≠ [] then s.multi_selected else [sel]
      nudgeSizeLoop s objids key

/-- The canvas `scale(id, cx, cy, f, f)` call: each coordinate moves to
`origin + (coord - origin) * factor`. -/
def scaleAbout (c : Coords) (cx cy : Int) (f : Rat) : Coords :=
  ⟨cx + (c.a - cx) * f, cy + (c.b - cy) * f,
   cx + (c.c - cx) * f, cy + (c.d - cy) * f⟩

/-- Scale every primitive with the given id about an anchor. -/
def scaleItem (items : List Item) (i : Nat) (cx cy : Int) (f : Rat) :
    List Item :=
  items.map (fun it =>
    if it.id = i then { it with coords := scaleAbout it.coords cx cy f }
    else it)

/-- `ShapeCanvas.resize_shape`: guard on no selection; moving the pointer
up from `motiony` scales the target(s) by 1.01 about their own centers,
moving down scales by 0.99; then record the motion position.  The float
factors are modelled as the rationals 101/100 and 99/100. -/
def resize_shape (s : ShapeState) (ev : Point) : Option ShapeState :=
  match s.selected with
  | none => some s
  | some sel =>
      match s.objlist.find? (fun o => o.id = sel) with
      | none => none
      | some whichone =>
          let s1 :=
            if s.multi_selected ≠ [] then
              let group := s.objlist.filter
                (fun o => s.multi_selected.contains o.id)
              group.foldl (fun t item =>
                let up := scaleItem t.items item.id item.center.1
                  item.center.2 ((101 : Rat) / 100)
                let t1 := if ev.y < s.motiony then { t with items := up } else t
                let dn := scaleItem t1.items item.id item.center.1
                  item.center.2 ((99 : Rat) / 100)
                if ev.y > s.motiony then { t1 with items := dn } else t1) s
            else
              let up := scaleItem s.items sel whichone.center.1
                whichone.center.2 ((101 : Rat) / 100)
              let t1 := if ev.y < s.motiony then { s with items := up } else s
              let dn := scaleItem t1.items sel whichone.center.1
                whichone.center.2 ((99 : Rat) / 100)
              if ev.y > s.motiony then { t1 with items := dn } else t1
          some { s1 with motionx := ev.x, motiony := ev.y }

/-- The `itemconfigure(id, outline=c)` call: set the outline color of
every primitive with the given id. -/
def setOutline (items : List Item) (i : Nat) (c : String) : List Item :=
  items.map (fun it => if it.id = i then { it with outline := c } else it)

/-- Outline color of the rendered primitive with the given id. -/
def getOutline (items : List Item) (i : Nat) : Option String :=
  (items.find? (fun it => it.id = i)).map (fun it => it.outline)

/-- `ShapeCanvas.set_to_black`: guard on an empty registry, then set the
outline and registry color of the shape found nearest the pointer.  The
toolkit's nearest-item lookup is an external capability; its result is the
`found` parameter (`none` models the IndexError on `found[0]` for an empty
result; a found id without a registry record makes the `next(...)` lookup
raise StopIteration). -/
def set_to_black (s : ShapeState) (found : Option Nat) (color : String) :
    Option ShapeState :=
  if s.objlist = [] then some s
  else
    match found with
    | none => none
    | some j =>
        let s1 := { s with items := setOutline s.items j color }
        (updFirst s1.objlist j (fun o => { o with linecolor := color })).map
          (fun l => { s1 with objlist := l })

/-- `ShapeCanvas.select_shape`: set `selected` to the id found nearest the
click (the lookup result is the `found` parameter); no change when nothing
is found.  The highlight flash is visual-only and omitted; the
`get_and_report_center` lookup raises (`none`) if the found id has no
registry record. -/
def select_shape (s : ShapeState) (found : Option Nat) :
    Option ShapeState :=
  match found with
  | none => some s
  | some j =>
      let s1 := { s with selected := some j }
      if s1.objlist.any (fun o => o.id = j) then some s1 else none

/-- Registry color lookup of `toggle_multi_select`'s removal branch:
`lc = ''` then `for n, shape in enumerate(objlist): if shape.id == the_id:
lc = objlist[n].linecolor` — the last matching record wins. -/
def lcLookup (l : List Shape) (i : Nat) : String :=
  l.foldl (fun acc o => if o.id = i then o.linecolor else acc) ""

/-- `ShapeCanvas.toggle_multi_select`: guard on no selection; look up the
nearest shape (`select_shape`, temporarily overwriting `selected`), mark
its outline grey, then toggle its membership in `multi_selected` —
removing restores the registry outline color (when non-empty) — and
restore the original `selected` in both branches. -/
def toggle_multi_select (s : ShapeState) (found : Option Nat) :
    Option ShapeState :=
  match s.selected with
  | none => some s
  | some orig =>
      (select_shape s found).bind (fun s1 =>
        match s1.selected with
        | none => some s1
        | some the_id =>
            let s2 := { s1 with items := setOutline s1.items the_id "grey" }
            if the_id ∈ s2.multi_selected then
              let s3 := { s2 with
                multi_selected := s2.multi_selected.erase the_id }
              let lc := lcLookup s3.objlist the_id
              let s4 :=
                if lc ≠ "" then
                  { s3 with items := setOutline s3.items the_id lc }
                else s3
              some { s4 with selected := some orig }
            else
              some { s2 with
                multi_selected := s2.multi_selected ++ [the_id]
                selected := some orig })

/-- Registry center of the shape with the given id (first record). -/
def getCenter (s : ShapeState) (i : Nat) : Option (Int × Int) :=
  (s.objlist.find? (fun o => o.id = i)).map (fun o => o.center)

end ShapeC

namespace ShapeC

/-- C5: in every state with no selection and no multi-selection (hence, in
any reachable such state, an empty registry), the gesture/key operations
drag, resize, nudge-location, nudge-size and recolor are silent no-ops,
but delete (Control+'x') and duplicate (Control+'d') are *not* guarded:
they raise (modelled by `none`) instead of returning unchanged. -/
theorem C5_empty_selection_behavior (s : ShapeState) (ev : Point) (c : Bool)
    (key : String) (found : Option Nat) (col : String)
    (h1 : s.selected = none) (h2 : s.multi_selected = [])
    (h3 : s.objlist = []) :
    drag_shape s ev c = some s ∧
    resize_shape s ev = some s ∧
    nudge_location s key = some s ∧
    nudge_size s key = some s ∧
    set_to_black s found col = some s ∧
    handle_delete s = none ∧
    handle_duplicate s = none := by
  refine ⟨?_, ?_, ?_, ?_, ?_, ?_, ?_⟩
  · simp [drag_shape, h1]
  · simp [resize_shape, h1]
  · simp [nudge_location, h1]
  · simp [nudge_size, h1]
  · simp [set_to_black, h3]
  · simp [handle_delete, h1, h2]
  · simp [handle_duplicate, h1]

/-- C5 witness: the behavior at the initial state (no shape ever
created). -/
theorem C5_empty_selection_witness :
    drag_shape initS ⟨3, 4⟩ false = some initS ∧
    resize_shape initS ⟨3, 4⟩ = some initS ∧
    nudge_location initS "Up" = some initS ∧
    nudge_size initS "Up" = some initS ∧
    set_to_black initS none "black" = some initS ∧
    handle_delete initS = none ∧
    handle_duplicate initS = none :=
  C5_empty_selection_behavior initS ⟨3, 4⟩ false "Up" none "black" rfl rfl rfl

end ShapeC

namespace ShapeC

/-- If a registry record with the given id exists (witnessed by `find?`),
`updFirst` succeeds and the updated list's first matching record is the
image of the old one, provided the update preserves the id. -/
theorem updFirst_find (i : Nat) (f : Shape → Shape)
    (hf : ∀ x : Shape, (f x).id = x.id) :
    ∀ (l : List Shape) (o : Shape),
      l.find? (fun x => x.id = i) = some o →
      ∃ l', updFirst l i f = some l' ∧
        l'.find? (fun x => x.id = i) = some (f o) := by
  intro l
  induction l with
  | nil => intro o h; simp at h
  | cons a rest ih =>
      intro o h
      by_cases ha : a.id = i
      · rw [List.find?_cons_of_pos _ (by simpa using ha)] at h
        obtain rfl : a = o := by injection h
        refine ⟨f a :: rest, ?_, ?_⟩
        · simp [updFirst, ha]
        · apply List.find?_cons_of_pos
          simp [hf a, ha]
      · rw [List.find?_cons_of_neg _ (by simpa using ha)] at h
        obtain ⟨l', hl', hfind⟩ := ih o h
        refine ⟨a :: l', ?_, ?_⟩
        · simp [updFirst, ha, hl']
        · rw [List.find?_cons_of_neg _ (by simpa using ha)]
          exact hfind

/-- One single-selection nudge: with no multi-selection, a selected id
whose registry record is `o`, and a recognized arrow key, `nudge_location`
succeeds, preserves the selection state, and shifts the selected record's
center by the key's unit step. -/
theorem nudge_single_step (s : ShapeState) (i : Nat) (o : Shape)
    (key : String) (d : Int × Int)
    (h1 : s.multi_selected = []) (h2 : s.selected = some i)
    (h3 : s.objlist.find? (fun x => x.id = i) = some o)
    (hd : keyDelta key = some d) :
    ∃ t, nudge_location s key = some t ∧
      t.multi_selected = [] ∧ t.selected = some i ∧
      t.objlist.find? (fun x => x.id = i) = some (centerShift o d.1 d.2) := by
  obtain ⟨l', hl', hfind⟩ :=
    updFirst_find i (fun x => centerShift x d.1 d.2) (fun x => rfl) s.objlist o h3
  refine ⟨{ s with items := moveItem s.items i d.1 d.2, objlist := l' },
    ?_, h1, h2, hfind⟩
  simp only [nudge_location, h2, hd]
  rw [if_neg (by simp [h1])]
  simp only [Option.some_bind]
  simp only [hl', Option.map_some']

/-- Iterated `nudge_location` with a fixed key. -/
def nudgeN : ShapeState → String → Nat → Option ShapeState
  | s, _, 0 => some s
  | s, key, n + 1 => (nudge_location s key).bind (fun t => nudgeN t key n)

/-- Iterating a single-selection nudge `k` times shifts the selected
record's center by `k` unit steps. -/
theorem nudgeN_center (key : String) (d : Int × Int) (i : Nat)
    (hd : keyDelta key = some d) :
    ∀ (k : Nat) (s : ShapeState) (o : Shape),
      s.multi_selected = [] → s.selected = some i →
      s.objlist.find? (fun x => x.id = i) = some o →
      ∃ t o', nudgeN s key k = some t ∧
        t.multi_selected = [] ∧ t.selected = some i ∧
        t.objlist.find? (fun x => x.id = i) = some o' ∧
        o'.center = (o.center.1 + (k : Int) * d.1,
                     o.center.2 + (k : Int) * d.2) := by
  intro k
  induction k with
  | zero =>
      intro s o h1 h2 h3
      refine ⟨s, o, rfl, h1, h2, h3, ?_⟩
      simp
  | succ n ih =>
      intro s o h1 h2 h3
      obtain ⟨t1, ht1, ht1m, ht1s, ht1f⟩ := nudge_single_step s i o key d h1 h2 h3 hd
      obtain ⟨t, o', ht, htm, hts, htf, hc⟩ :=
        ih t1 (centerShift o d.1 d.2) ht1m ht1s ht1f
      refine ⟨t, o', ?_, htm, hts, htf, ?_⟩
      · simp only [nudgeN, ht1, Option.some_bind, ht]
      · rw [hc]
        simp only [centerShift, Prod.mk.injEq]
        refine ⟨?_, ?_⟩ <;> push_cast <;> ring

/-- C6: with a single selection (no multi-selection), nudging the selected
shape up `k` times and then down `k` times returns its registry center
exactly to the original value — an exact integer round-trip — and the
arrow keys map to the unit steps Up (0,-1), Down (0,1), Left (-1,0),
Right (1,0). -/
theorem C6_nudge_up_down_roundtrip (s : ShapeState) (i : Nat) (o : Shape)
    (k : Nat)
    (h1 : s.multi_selected = []) (h2 : s.selected = some i)
    (h3 : s.objlist.find? (fun x => x.id = i) = some o) :
    (∃ t, (nudgeN s "Up" k).bind (fun u => nudgeN u "Down" k) = some t ∧
       getCenter t i = getCenter s i) ∧
    keyDelta "Up" = some (0, -1) ∧ keyDelta "Down" = some (0, 1) ∧
    keyDelta "Left" = some (-1, 0) ∧ keyDelta "Right" = some (1, 0) := by
  refine ⟨?_, rfl, rfl, rfl, rfl⟩
  obtain ⟨t1, o1, ht1, h1m, h1s, h1f, h1c⟩ :=
    nudgeN_center "Up" (0, -1) i rfl k s o h1 h2 h3
  obtain ⟨t, o', ht, _, _, htf, hc⟩ :=
    nudgeN_center "Down" (0, 1) i rfl k t1 o1 h1m h1s h1f
  refine ⟨t, ?_, ?_⟩
  · simp only [ht1, Option.some_bind, ht]
  · simp only [getCenter, htf, h3, Option.map_some']
    rw [hc, h1c]
    simp

/-- A concrete one-shape state used to witness the C6 round trip. -/
def c6state : ShapeState :=
  { initS with
    selected := some 1
    objlist := [⟨1, (7, 9), "black"⟩]
    items := [⟨1, "oval", "oval1", ⟨-13, -11, 27, 29⟩, "black"⟩]
    nextId := 2 }

/-- C6 witness: the round trip at a concrete one-shape state with k = 2. -/
theorem C6_nudge_up_down_witness :
    ∃ t, (nudgeN c6state "Up" 2).bind (fun u => nudgeN u "Down" 2) = some t ∧
      getCenter t 1 = getCenter c6state 1 :=
  (C6_nudge_up_down_roundtrip c6state 1 ⟨1, (7, 9), "black"⟩ 2 rfl rfl rfl).1

end ShapeC

namespace ShapeC

/-- `setOutline` relocates `find?` through the map: the first item with
the target id gets its outline replaced, and lookup still finds it. -/
theorem find?_setOutline (i : Nat) (c : String) :
    ∀ items : List Item,
      (setOutline items i c).find? (fun x => x.id = i)
        = (items.find? (fun x => x.id = i)).map
            (fun it => { it with outline := c }) := by
  intro items
  induction items with
  | nil => rfl
  | cons a l ih =>
      by_cases ha : a.id = i
      · unfold setOutline
        simp only [List.map_cons, if_pos ha]
        rw [List.find?_cons_of_pos _ (by simpa using ha),
            List.find?_cons_of_pos _ (by simpa using ha)]
        rfl
      · unfold setOutline
        simp only [List.map_cons, if_neg ha]
        rw [List.find?_cons_of_neg _ (by simpa using ha),
            List.find?_cons_of_neg _ (by simpa using ha)]
        exact ih

/-- A fold that never meets the id leaves the accumulator unchanged. -/
theorem lcLookup_acc (i : Nat) :
    ∀ (l : List Shape) (acc : String), (∀ o ∈ l, o.id ≠ i) →
      l.foldl (fun acc o => if o.id = i then o.linecolor else acc) acc
        = acc := by
  intro l
  induction l with
  | nil => intro acc _; rfl
  | cons a l ih =>
      intro acc h
      simp only [List.foldl_cons]
      rw [if_neg (h a (List.mem_cons_self a l))]
      exact ih acc (fun o ho => h o (List.mem_cons_of_mem a ho))

/-- A non-empty `lcLookup` result certifies that the registry holds the
id. -/
theorem lcLookup_any (l : List Shape) (i : Nat) (h : lcLookup l i ≠ "") :
    l.any (fun o => o.id = i) := by
  by_contra hc
  apply h
  apply lcLookup_acc
  intro o ho he
  exact hc (List.any_eq_true.mpr ⟨o, ho, by simpa using he⟩)

/-- Appending a fresh element and erasing it is the identity. -/
theorem erase_append_self (l : List Nat) (j : Nat) (h : j ∉ l) :
    (l ++ [j]).erase j = l := by
  rw [List.erase_append_right _ h, List.erase_cons_head, List.append_nil]

end ShapeC

namespace ShapeC

/-- C7: with a non-null selection, toggling the same shape (found by the
nearest-shape lookup both times) into and out of `multi_selected` twice
returns `multi_selected` to its original contents and the shape's rendered
outline to its pre-toggle value, and each single toggle restores
`selected` to the value it had before the toggle.  The first implication
covers a shape currently outside the multi-selection (outline = its
registry color), the second a shape currently inside it (outline =
the grey multi-selection indicator, `multi_selected` without duplicates). -/
theorem C7_toggle_multi_select_symmetry (s : ShapeState) (j orig : Nat)
    (lc : String)
    (hsel : s.selected = some orig)
    (hlc : lcLookup s.objlist j = lc) (hne : lc ≠ "") :
    ((j ∉ s.multi_selected ∧ getOutline s.items j = some lc) →
      ∃ s1 s2, toggle_multi_select s (some j) = some s1 ∧
        s1.selected = some orig ∧
        toggle_multi_select s1 (some j) = some s2 ∧
        s2.selected = some orig ∧
        s2.multi_selected = s.multi_selected ∧
        getOutline s2.items j = some lc) ∧
    ((j ∈ s.multi_selected ∧ s.multi_selected.Nodup ∧
        getOutline s.items j = some "grey") →
      ∃ s1 s2, toggle_multi_select s (some j) = some s1 ∧
        s1.selected = some orig ∧
        toggle_multi_select s1 (some j) = some s2 ∧
        s2.selected = some orig ∧
        s2.multi_selected.Perm s.multi_selected ∧
        getOutline s2.items j = some "grey") := by
  have hany : s.objlist.any (fun o => o.id = j) := lcLookup_any s.objlist j
    (by rw [hlc]; exact hne)
  constructor
  · rintro ⟨hA, houtA⟩
    obtain ⟨it0, hfind0, hout0⟩ := Option.map_eq_some'.mp houtA
    refine ⟨{ s with
        selected := some orig
        multi_selected := s.multi_selected ++ [j]
        items := setOutline s.items j "grey" },
      { s with
        selected := some orig
        multi_selected := (s.multi_selected ++ [j]).erase j
        items := setOutline (setOutline (setOutline s.items j "grey") j "grey") j lc },
      ?_, rfl, ?_, rfl, ?_, ?_⟩
    · unfold toggle_multi_select select_shape
      rw [hsel]
      try dsimp only
      rw [if_pos hany]
      dsimp only [Option.some_bind]
      rw [if_neg hA]
    · unfold toggle_multi_select select_shape
      try dsimp only
      rw [if_pos hany]
      dsimp only [Option.some_bind]
      rw [if_pos (show j ∈ s.multi_selected ++ [j] by simp)]
      try dsimp only
      rw [hlc, if_pos hne]
    · exact erase_append_self s.multi_selected j hA
    · unfold getOutline
      rw [find?_setOutline, find?_setOutline, find?_setOutline, hfind0]
      rfl
  · rintro ⟨hB, hnd, houtB⟩
    obtain ⟨it0, hfind0, hout0⟩ := Option.map_eq_some'.mp houtB
    refine ⟨{ s with
        selected := some orig
        multi_selected := s.multi_selected.erase j
        items := setOutline (setOutline s.items j "grey") j lc },
      { s with
        selected := some orig
        multi_selected := s.multi_selected.erase j ++ [j]
        items := setOutline (setOutline (setOutline s.items j "grey") j lc) j "grey" },
      ?_, rfl, ?_, rfl, ?_, ?_⟩
    · unfold toggle_multi_select select_shape
      rw [hsel]
      try dsimp only
      rw [if_pos hany]
      dsimp only [Option.some_bind]
      rw [if_pos hB]
      try dsimp only
      rw [hlc, if_pos hne]
    · unfold toggle_multi_select select_shape
      try dsimp only
      rw [if_pos hany]
      dsimp only [Option.some_bind]
      rw [if_neg (hnd.not_mem_erase)]
    · exact (List.perm_append_singleton j (s.multi_selected.erase j)).trans
        (List.perm_cons_erase hB).symm
    · unfold getOutline
      rw [find?_setOutline, find?_setOutline, find?_setOutline, hfind0]
      rfl

/-- A concrete one-shape state used to witness the C7 toggle symmetry. -/
def c7state : ShapeState :=
  { initS with
    selected := some 1
    objlist := [⟨1, (5, 5), "black"⟩]
    items := [⟨1, "oval", "oval1", ⟨-15, -15, 25, 25⟩, "black"⟩]
    nextId := 2 }

/-- C7 witness: the toggle-in/toggle-out case at a concrete state. -/
theorem C7_toggle_multi_select_witness :
    ∃ s1 s2, toggle_multi_select c7state (some 1) = some s1 ∧
      s1.selected = some 1 ∧
      toggle_multi_select s1 (some 1) = some s2 ∧
      s2.selected = some 1 ∧
      s2.multi_selected = c7state.multi_selected ∧
      getOutline s2.items 1 = some "black" :=
  (C7_toggle_multi_select_symmetry c7state 1 1 "black" rfl rfl
    (by decide)).1 ⟨by decide, rfl⟩

end ShapeC

namespace ShapeC

/-- A map whose function fixes the elements not matching the id is the
identity on a list without that id. -/
theorem map_fix_of_no_id (i : Nat) (f : Item → Item) :
    ∀ l : List Item, (∀ x ∈ l, x.id ≠ i) →
      l.map (fun x => if x.id = i then f x else x) = l := by
  intro l
  induction l with
  | nil => intro _; rfl
  | cons a l ih =>
      intro h
      simp only [List.map_cons]
      rw [if_neg (h a (List.mem_cons_self a l)),
          ih (fun x hx => h x (List.mem_cons_of_mem a hx))]

/-- The registry analogue of `map_fix_of_no_id`. -/
theorem map_fix_of_no_id_shape (i : Nat) (f : Shape → Shape) :
    ∀ l : List Shape, (∀ x ∈ l, x.id ≠ i) →
      l.map (fun o => if o.id = i then f o else o) = l := by
  intro l
  induction l with
  | nil => intro _; rfl
  | cons a l ih =>
      intro h
      simp only [List.map_cons]
      rw [if_neg (h a (List.mem_cons_self a l)),
          ih (fun x hx => h x (List.mem_cons_of_mem a hx))]

/-- With duplicate-free ids, moving a duplicate-free list of ids one by
one is the same as one simultaneous conditional shift of every item whose
id belongs to the list. -/
theorem moveIds_eq_map (dx dy : Int) :
    ∀ (ids : List Nat) (items : List Item), ids.Nodup →
      moveIds items ids dx dy = items.map (fun it =>
        if ids.contains it.id then itemShift it dx dy else it) := by
  intro ids
  induction ids with
  | nil =>
      intro items _
      simp [moveIds]
  | cons i rest ih =>
      intro items hnd
      have hrest : rest.Nodup := hnd.of_cons
      have hi : i ∉ rest := (List.nodup_cons.mp hnd).1
      have step : moveIds items (i :: rest) dx dy
          = moveIds (moveItem items i dx dy) rest dx dy := rfl
      rw [step, ih _ hrest]
      unfold moveItem
      rw [List.map_map]
      apply List.map_congr_left
      intro it _
      by_cases hit : it.id = i
      · simp only [Function.comp_apply, if_pos hit]
        have hids : (itemShift it dx dy).id = it.id := rfl
        rw [if_neg (by rw [hids, hit]; simpa using hi)]
        rw [if_pos (by simp [hit])]
      · simp only [Function.comp_apply, if_neg hit]
        by_cases hr : rest.contains it.id
        · rw [if_pos hr, if_pos (by
            simp only [List.contains_cons, Bool.or_eq_true, beq_iff_eq]
            exact Or.inr hr)]
        · rw [if_neg hr, if_neg (by
            simp only [List.contains_cons, Bool.or_eq_true, beq_iff_eq]
            push_neg
            exact ⟨hit, by simpa using hr⟩)]

/-- With duplicate-free registry ids, updating the first record with a
given id (an id that is present) is one simultaneous conditional update. -/
theorem updFirst_eq_map (i : Nat) (f : Shape → Shape) :
    ∀ l : List Shape, (l.map (fun o => o.id)).Nodup →
      l.any (fun o => o.id = i) →
      updFirst l i f = some (l.map (fun o => if o.id = i then f o else o)) := by
  intro l
  induction l with
  | nil => intro _ h; simp at h
  | cons a rest ih =>
      intro hnd hany
      by_cases ha : a.id = i
      · unfold updFirst
        rw [if_pos ha]
        simp only [List.map_cons, if_pos ha]
        have hnotin : ∀ x ∈ rest, x.id ≠ i := by
          intro x hx he
          have : a.id ∈ rest.map (fun o => o.id) := by
            rw [ha, ← he]; exact List.mem_map_of_mem _ hx
          exact (List.nodup_cons.mp (by simpa using hnd)).1 this
        rw [map_fix_of_no_id_shape i f rest hnotin]
      · unfold updFirst
        rw [if_neg ha]
        have hany' : rest.any (fun o => o.id = i) := by
          rcases List.any_eq_true.mp hany with ⟨x, hx, hpx⟩
          rcases List.mem_cons.mp hx with rfl | hxr
          · exact absurd (by simpa using hpx) ha
          · exact List.any_eq_true.mpr ⟨x, hxr, hpx⟩
        rw [ih (by simpa using (List.nodup_cons.mp (by simpa using hnd)).2) hany']
        simp only [List.map_cons, if_neg ha, Option.map_some']

end ShapeC

namespace ShapeC

/-- An id-preserving rewrite of the rendered items leaves the id search
untouched. -/
theorem any_id_map_fix (g : Item → Item) (hg : ∀ x, (g x).id = x.id)
    (sel : Nat) :
    ∀ items : List Item,
      (items.map g).any (fun x => x.id = sel)
        = items.any (fun x => x.id = sel) := by
  intro items
  induction items with
  | nil => rfl
  | cons a l ih => simp only [List.map_cons, List.any_cons, hg a, ih]

/-- C8 amended: for a drag step with a non-empty multi-selection, the same
unit step is applied to the *rendered* primitive of every member (and no
other rendered item moves), but only the registry center of the `selected`
shape is updated by the step; the registry centers of every other shape —
including the other members of `multi_selected` — are unchanged. -/
theorem C8_drag_multi_amended (s : ShapeState) (ev : Point) (c : Bool)
    (sel : Nat)
    (hm : s.multi_selected ≠ []) (hmnd : s.multi_selected.Nodup)
    (hsel : s.selected = some sel)
    (hond : (s.objlist.map (fun o => o.id)).Nodup)
    (hobj : s.objlist.any (fun o => o.id = sel))
    (hit : s.items.any (fun it => it.id = sel)) :
    ∃ s', drag_shape s ev c = some s' ∧
      s'.items = s.items.map (fun it =>
        if s.multi_selected.contains it.id then
          itemShift it (dragStep s ev c).1 (dragStep s ev c).2
        else it) ∧
      s'.objlist = s.objlist.map (fun o =>
        if o.id = sel then
          centerShift o (dragStep s ev c).1 (dragStep s ev c).2
        else o) ∧
      s'.previousx = ev.x ∧ s'.previousy = ev.y ∧
      s'.selected = s.selected ∧ s'.multi_selected = s.multi_selected := by
  refine ⟨{ s with
      previousx := ev.x
      previousy := ev.y
      items := s.items.map (fun it =>
        if s.multi_selected.contains it.id then
          itemShift it (dragStep s ev c).1 (dragStep s ev c).2
        else it)
      objlist := s.objlist.map (fun o =>
        if o.id = sel then
          centerShift o (dragStep s ev c).1 (dragStep s ev c).2
        else o) },
    ?_, rfl, rfl, rfl, rfl, rfl, rfl⟩
  unfold drag_shape
  rw [hsel]
  try dsimp only
  rw [if_pos hobj]
  try dsimp only
  rw [if_pos hm]
  rw [moveIds_eq_map (dragStep s ev c).1 (dragStep s ev c).2
      s.multi_selected s.items hmnd]
  rw [if_pos (by
    rw [any_id_map_fix _ (fun x => by
      by_cases hx : s.multi_selected.contains x.id
      · rw [if_pos hx]; rfl
      · rw [if_neg hx])]
    exact hit)]
  rw [updFirst_eq_map sel _ s.objlist hond hobj]
  rfl

/-- A concrete two-shape state for the C8 counterexample and witness:
both shapes multi-selected, shape 2 selected. -/
def c8state : ShapeState :=
  { initS with
    selected := some 2
    multi_selected := [1, 2]
    objlist := [⟨1, (10, 10), "black"⟩, ⟨2, (30, 30), "black"⟩]
    items := [⟨1, "oval", "oval1", ⟨-10, -10, 30, 30⟩, "black"⟩,
              ⟨2, "oval", "oval2", ⟨10, 10, 50, 50⟩, "black"⟩]
    nextId := 3 }

/-- C8 counterexample: at `c8state`, a drag step with unit step (1,1)
leaves the registry center of multi-selected shape 1 at (10,10) instead of
updating it to (11,11) — the claim's "each member's registry center is
updated by exactly (dx, dy)" fails. -/
theorem C8_drag_multi_counterexample :
    dragStep c8state ⟨5, 5⟩ false = (1, 1) ∧
    (drag_shape c8state ⟨5, 5⟩ false).bind (fun t => getCenter t 1)
      = some (10, 10) ∧
    ¬ ((drag_shape c8state ⟨5, 5⟩ false).bind (fun t => getCenter t 1)
      = some (11, 11)) := by
  refine ⟨rfl, rfl, ?_⟩
  decide

/-- C8 witness: the amended statement applied at `c8state`. -/
theorem C8_drag_multi_witness :
    ∃ s', drag_shape c8state ⟨5, 5⟩ false = some s' ∧
      s'.items = c8state.items.map (fun it =>
        if c8state.multi_selected.contains it.id then
          itemShift it (dragStep c8state ⟨5, 5⟩ false).1
            (dragStep c8state ⟨5, 5⟩ false).2
        else it) ∧
      s'.objlist = c8state.objlist.map (fun o =>
        if o.id = 2 then
          centerShift o (dragStep c8state ⟨5, 5⟩ false).1
            (dragStep c8state ⟨5, 5⟩ false).2
        else o) ∧
      s'.previousx = 5 ∧ s'.previousy = 5 ∧
      s'.selected = c8state.selected ∧
      s'.multi_selected = c8state.multi_selected :=
  C8_drag_multi_amended c8state ⟨5, 5⟩ false 2 (by decide) (by decide) rfl
    (by decide) (by decide) (by decide)

end ShapeC

namespace ShapeC

/-- Core computation of `handle_duplicate`, abstracted over the reduction
of `create_shape` at the selected shape's kind (supplied as `hck`, which
holds by `rfl` for each of the three valid kinds). -/
theorem handle_duplicate_aux (s : ShapeState) (sel : Nat) (it : Item)
    (ob last_ : Shape)
    (hsel : s.selected = some sel)
    (hit : s.items.find? (fun x => x.id = sel) = some it)
    (hob : s.objlist.find? (fun o => o.id = sel) = some ob)
    (hck : create_shape s it.kind ob.linecolor "oval2"
      = (some s.nextId,
         { s with
           items := s.items ++ [(⟨s.nextId, it.kind, "oval2",
             calc_location s it.kind, ob.linecolor⟩ : Item)]
           nextId := s.nextId + 1 }))
    (hlast : s.objlist.getLast? = some last_)
    (hlne : last_.id ≠ s.nextId)
    (hfresh : s.items.find? (fun x => x.id = s.nextId) = none)
    (hlc : s.linecolor = ob.linecolor) :
    ∃ s', handle_duplicate s = some s' ∧
      ((coordsOf s.items last_.id ≠ some (coordsPlus it.coords 20) →
        s'.items = s.items ++ [(⟨s.nextId, it.kind, "oval2",
          coordsPlus it.coords 20, ob.linecolor⟩ : Item)] ∧
        s'.objlist = s.objlist ++ [(⟨s.nextId,
          (ob.center.1 + 20, ob.center.2 + 20), ob.linecolor⟩ : Shape)]) ∧
      (coordsOf s.items last_.id = some (coordsPlus it.coords 20) →
        s'.items = s.items ++ [(⟨s.nextId, it.kind, "oval2",
          coordsPlus (coordsPlus it.coords 20) 20, ob.linecolor⟩ : Item)] ∧
        s'.objlist = s.objlist ++ [(⟨s.nextId,
          (ob.center.1 + 40, ob.center.2 + 40), ob.linecolor⟩ : Shape)])) := by
  have hnotin : ∀ x ∈ s.items, x.id ≠ s.nextId := by
    intro x hx
    have := List.find?_eq_none.mp hfresh x hx
    simpa using this
  have hsingle : List.find? (fun x => x.id = last_.id)
      [(⟨s.nextId, it.kind, "oval2", calc_location s it.kind,
        ob.linecolor⟩ : Item)] = none := by
    rw [List.find?_cons_of_neg _ (by simpa using fun h => hlne h.symm)]
    rfl
  have hco : coordsOf (s.items ++ [(⟨s.nextId, it.kind, "oval2",
      calc_location s it.kind, ob.linecolor⟩ : Item)]) last_.id
      = coordsOf s.items last_.id := by
    unfold coordsOf
    rw [List.find?_append, hsingle]
    cases s.items.find? (fun x => x.id = last_.id) <;> rfl
  have hcoSel : coordsOf (s.items ++ [(⟨s.nextId, it.kind, "oval2",
      calc_location s it.kind, ob.linecolor⟩ : Item)]) sel
      = some it.coords := by
    unfold coordsOf
    rw [List.find?_append, hit]
    rfl
  have hset : ∀ c : Coords, setCoords (s.items ++ [(⟨s.nextId, it.kind,
      "oval2", calc_location s it.kind, ob.linecolor⟩ : Item)]) s.nextId c
      = s.items ++ [(⟨s.nextId, it.kind, "oval2", c, ob.linecolor⟩ : Item)] := by
    intro c
    unfold setCoords
    rw [List.map_append, map_fix_of_no_id s.nextId _ s.items hnotin]
    simp
  by_cases hcol : coordsOf s.items last_.id = some (coordsPlus it.coords 20)
  · refine ⟨{ s with
        items := s.items ++ [(⟨s.nextId, it.kind, "oval2",
          coordsPlus (coordsPlus it.coords 20) 20, ob.linecolor⟩ : Item)]
        objlist := s.objlist ++ [(⟨s.nextId,
          (ob.center.1 + 40, ob.center.2 + 40), ob.linecolor⟩ : Shape)]
        nextId := s.nextId + 1 },
      ?_, fun h => absurd hcol h, fun _ => ⟨rfl, rfl⟩⟩
    unfold handle_duplicate
    rw [hsel]
    try dsimp only
    rw [hit]
    try dsimp only
    rw [hob]
    try dsimp only
    rw [hck]
    try dsimp only
    rw [hcoSel]
    try dsimp only
    rw [hlast]
    try dsimp only
    rw [hco, if_pos hcol, if_pos hcol, hset, hlc, hsel]
  · refine ⟨{ s with
        items := s.items ++ [(⟨s.nextId, it.kind, "oval2",
          coordsPlus it.coords 20, ob.linecolor⟩ : Item)]
        objlist := s.objlist ++ [(⟨s.nextId,
          (ob.center.1 + 20, ob.center.2 + 20), ob.linecolor⟩ : Shape)]
        nextId := s.nextId + 1 },
      ?_, fun _ => ⟨rfl, rfl⟩, fun h => absurd h hcol⟩
    unfold handle_duplicate
    rw [hsel]
    try dsimp only
    rw [hit]
    try dsimp only
    rw [hob]
    try dsimp only
    rw [hck]
    try dsimp only
    rw [hcoSel]
    try dsimp only
    rw [hlast]
    try dsimp only
    rw [hco, if_neg hcol, if_neg hcol, hset, hlc, hsel]

end ShapeC

namespace ShapeC

/-- C9: with a non-null selection whose shape exists on the canvas and in
the registry (and a fresh toolkit id), duplicate (Control+'d') appends to
the registry a new shape rendered with the same kind and the same
(registry) color as the selected shape, placed at the selected shape's
bounding box offset by +20 on every coordinate; and when that offset
target coincides exactly with the canvas position of the most recently
created registry entry, the offset is doubled to +40, so the new shape
does not exactly overlap it. -/
theorem C9_duplicate_offset (s : ShapeState) (sel : Nat) (it : Item)
    (ob last_ : Shape)
    (hsel : s.selected = some sel)
    (hit : s.items.find? (fun x => x.id = sel) = some it)
    (hob : s.objlist.find? (fun o => o.id = sel) = some ob)
    (hkind : it.kind = "oval" ∨ it.kind = "rectangle" ∨ it.kind = "arc")
    (hlast : s.objlist.getLast? = some last_)
    (hlne : last_.id ≠ s.nextId)
    (hfresh : s.items.find? (fun x => x.id = s.nextId) = none)
    (hlc : s.linecolor = ob.linecolor) :
    ∃ s', handle_duplicate s = some s' ∧
      ((coordsOf s.items last_.id ≠ some (coordsPlus it.coords 20) →
        s'.items = s.items ++ [(⟨s.nextId, it.kind, "oval2",
          coordsPlus it.coords 20, ob.linecolor⟩ : Item)] ∧
        s'.objlist = s.objlist ++ [(⟨s.nextId,
          (ob.center.1 + 20, ob.center.2 + 20), ob.linecolor⟩ : Shape)]) ∧
      (coordsOf s.items last_.id = some (coordsPlus it.coords 20) →
        s'.items = s.items ++ [(⟨s.nextId, it.kind, "oval2",
          coordsPlus (coordsPlus it.coords 20) 20, ob.linecolor⟩ : Item)] ∧
        s'.objlist = s.objlist ++ [(⟨s.nextId,
          (ob.center.1 + 40, ob.center.2 + 40), ob.linecolor⟩ : Shape)])) := by
  rcases hkind with hk | hk | hk <;>
    exact handle_duplicate_aux s sel it ob last_ hsel hit hob
      (by rw [hk]; rfl) hlast hlne hfresh hlc

/-- A concrete one-shape state used to witness C9. -/
def c9state : ShapeState :=
  { initS with
    selected := some 1
    objlist := [⟨1, (5, 5), "black"⟩]
    items := [⟨1, "oval", "oval1", ⟨-15, -15, 25, 25⟩, "black"⟩]
    nextId := 2 }

/-- C9 witness: duplicating the only shape of `c9state`. -/
theorem C9_duplicate_witness :
    ∃ s', handle_duplicate c9state = some s' ∧
      ((coordsOf c9state.items 1 ≠ some (coordsPlus ⟨-15, -15, 25, 25⟩ 20) →
        s'.items = c9state.items ++ [(⟨2, "oval", "oval2",
          coordsPlus ⟨-15, -15, 25, 25⟩ 20, "black"⟩ : Item)] ∧
        s'.objlist = c9state.objlist ++
          [(⟨2, ((5 : Int) + 20, (5 : Int) + 20), "black"⟩ : Shape)]) ∧
      (coordsOf c9state.items 1 = some (coordsPlus ⟨-15, -15, 25, 25⟩ 20) →
        s'.items = c9state.items ++ [(⟨2, "oval", "oval2",
          coordsPlus (coordsPlus ⟨-15, -15, 25, 25⟩ 20) 20, "black"⟩ : Item)] ∧
        s'.objlist = c9state.objlist ++
          [(⟨2, ((5 : Int) + 40, (5 : Int) + 40), "black"⟩ : Shape)])) :=
  C9_duplicate_offset c9state 1 ⟨1, "oval", "oval1", ⟨-15, -15, 25, 25⟩, "black"⟩
    ⟨1, (5, 5), "black"⟩ ⟨1, (5, 5), "black"⟩ rfl rfl rfl (Or.inl rfl) rfl
    (by decide) rfl rfl

end ShapeC

namespace ShapeC

/-- Removing the first registry record with a present id equals filtering
that id out, when registry ids are duplicate-free. -/
theorem objRemove_eq_filter (i : Nat) :
    ∀ l : List Shape, i ∈ l.map (fun o => o.id) →
      (l.map (fun o => o.id)).Nodup →
      objRemove l i = some (l.filter (fun o => o.id ≠ i)) := by
  intro l
  induction l with
  | nil => intro h _; simp at h
  | cons a rest ih =>
      intro hmem hnd
      by_cases ha : a.id = i
      · unfold objRemove
        rw [if_pos ha]
        have hnotin : ∀ x ∈ rest, x.id ≠ i := by
          intro x hx he
          have h1 : a.id ∉ rest.map (fun o => o.id) :=
            (List.nodup_cons.mp (by simpa using hnd)).1
          exact h1 (by rw [ha, ← he]; exact List.mem_map_of_mem _ hx)
        rw [List.filter_cons_of_neg (by simp [ha]),
            List.filter_eq_self.mpr (fun x hx => by simpa using hnotin x hx)]
      · unfold objRemove
        rw [if_neg ha]
        have hmem' : i ∈ rest.map (fun o => o.id) := by
          rcases List.mem_map.mp hmem with ⟨x, hx, he⟩
          rcases List.mem_cons.mp hx with rfl | hxr
          · exact absurd he ha
          · exact List.mem_map.mpr ⟨x, hxr, he⟩
        rw [ih hmem' (List.nodup_cons.mp (by simpa using hnd)).2]
        rw [List.filter_cons_of_pos (by simpa using ha)]
        rfl

/-- The Control+'x' deletion loop over a duplicate-free list of present
ids filters those ids out of the registry and the rendered items, and
touches nothing else. -/
theorem deleteIds_eq (ids : List Nat) :
    ∀ s : ShapeState, ids.Nodup →
      (∀ i ∈ ids, i ∈ s.objlist.map (fun o => o.id)) →
      (s.objlist.map (fun o => o.id)).Nodup →
      deleteIds s ids = some { s with
        objlist := s.objlist.filter (fun o => !ids.contains o.id)
        items := s.items.filter (fun it => !ids.contains it.id) } := by
  induction ids with
  | nil =>
      intro s _ _ _
      unfold deleteIds
      have h1 : s.objlist.filter (fun o => !([] : List Nat).contains o.id)
          = s.objlist := List.filter_eq_self.mpr (fun x _ => by simp)
      have h2 : s.items.filter (fun it => !([] : List Nat).contains it.id)
          = s.items := List.filter_eq_self.mpr (fun x _ => by simp)
      rw [h1, h2]
  | cons i rest ih =>
      intro s hnd hmem hond
      have htail : rest.Nodup := (List.nodup_cons.mp hnd).2
      have hi : i ∉ rest := (List.nodup_cons.mp hnd).1
      unfold deleteIds
      rw [objRemove_eq_filter i s.objlist (hmem i (List.mem_cons_self i rest)) hond]
      try dsimp only
      have hmem' : ∀ j ∈ rest,
          j ∈ (s.objlist.filter (fun o => o.id ≠ i)).map (fun o => o.id) := by
        intro j hj
        have hji : j ≠ i := fun he => hi (he ▸ hj)
        rcases List.mem_map.mp (hmem j (List.mem_cons_of_mem i hj)) with ⟨x, hx, he⟩
        refine List.mem_map.mpr ⟨x, List.mem_filter.mpr ⟨hx, ?_⟩, he⟩
        simpa using he ▸ hji
      have hond' : ((s.objlist.filter (fun o => o.id ≠ i)).map
          (fun o => o.id)).Nodup :=
        ((List.filter_sublist s.objlist).map (fun o => o.id)).nodup hond
      have := ih { s with
        objlist := s.objlist.filter (fun o => o.id ≠ i)
        items := canvasDelete s.items i } htail hmem' hond'
      rw [this]
      try dsimp only
      have hobjeq : (s.objlist.filter (fun o => o.id ≠ i)).filter
          (fun o => !rest.contains o.id)
          = s.objlist.filter (fun o => !(i :: rest).contains o.id) := by
        rw [List.filter_filter]
        apply List.filter_congr
        intro a _
        by_cases hai : a.id = i <;> simp [hai, List.contains_cons]
      have hitemeq : (s.items.filter (fun it => it.id ≠ i)).filter
          (fun it => !rest.contains it.id)
          = s.items.filter (fun it => !(i :: rest).contains it.id) := by
        rw [List.filter_filter]
        apply List.filter_congr
        intro a _
        by_cases hai : a.id = i <;> simp [hai, List.contains_cons]
      rw [show canvasDelete s.items i
          = s.items.filter (fun it => it.id ≠ i) from rfl]
      rw [hobjeq, hitemeq]

end ShapeC

namespace ShapeC

/-- The set of ids Control+'x' deletes: the multi-selection when
non-empty, otherwise the selected id alone. -/
def delset (s : ShapeState) : List Nat :=
  if s.multi_selected = [] then
    (match s.selected with
     | some k => [k]
     | none => [])
  else s.multi_selected

/-- The Boolean forms of "id is not the deleted single id" agree. -/
theorem single_pred_eq (x k : Nat) :
    (decide (x ≠ k)) = !([k] : List Nat).contains x := by
  by_cases h : x = k <;> simp [h]

/-- C4 amended: delete (Control+'x') removes every id of `delset`
(the multi-selection when non-empty, otherwise the selected id) from the
registry and from the rendered primitives, leaving the other entries and
`multi_selected` untouched; afterwards, if any registry entries remain,
`selected` is the id of the last remaining entry, and if none remain,
`selected` keeps its previous (now dangling) value — it is *not* set to
null. -/
theorem C4_delete_behavior (s : ShapeState)
    (hond : (s.objlist.map (fun o => o.id)).Nodup)
    (hmulti : s.multi_selected ≠ [] → s.multi_selected.Nodup ∧
      ∀ i ∈ s.multi_selected, i ∈ s.objlist.map (fun o => o.id))
    (hsingle : s.multi_selected = [] → ∃ k, s.selected = some k ∧
      k ∈ s.objlist.map (fun o => o.id)) :
    ∃ s', handle_delete s = some s' ∧
      s'.objlist = s.objlist.filter (fun o => !(delset s).contains o.id) ∧
      s'.items = s.items.filter (fun it => !(delset s).contains it.id) ∧
      s'.multi_selected = s.multi_selected ∧
      (∀ o, s'.objlist.getLast? = some o → s'.selected = some o.id) ∧
      (s'.objlist = [] → s'.selected = s.selected) := by
  by_cases hm : s.multi_selected = []
  · obtain ⟨k, hk, hkmem⟩ := hsingle hm
    have hds : delset s = [k] := by simp [delset, hm, hk]
    have hobjeq : s.objlist.filter (fun o => o.id ≠ k)
        = s.objlist.filter (fun o => !(delset s).contains o.id) := by
      rw [hds]
      exact List.filter_congr (fun a _ => single_pred_eq a.id k)
    have hitemeq : s.items.filter (fun it => it.id ≠ k)
        = s.items.filter (fun it => !(delset s).contains it.id) := by
      rw [hds]
      exact List.filter_congr (fun a _ => single_pred_eq a.id k)
    unfold handle_delete
    rw [if_neg (by simp [hm])]
    rw [hk]
    try dsimp only
    rw [objRemove_eq_filter k s.objlist hkmem hond]
    try dsimp only
    rw [show canvasDelete s.items k
        = s.items.filter (fun it => it.id ≠ k) from rfl]
    rw [hobjeq, hitemeq]
    simp only [Option.map_some']
    try dsimp only
    cases hL : (s.objlist.filter
        (fun o => !(delset s).contains o.id)).getLast? with
    | some o =>
        refine ⟨_, rfl, rfl, rfl, rfl, ?_, ?_⟩
        · intro o' ho'
          dsimp only at ho'
          rw [hL] at ho'
          cases ho'
          rfl
        · intro he
          dsimp only at he
          rw [he] at hL
          simp at hL
    | none =>
        refine ⟨_, rfl, rfl, rfl, rfl, ?_, ?_⟩
        · intro o' ho'
          dsimp only at ho'
          rw [hL] at ho'
          cases ho'
        · intro _
          rfl
  · obtain ⟨hmn, hmm⟩ := hmulti hm
    have hds : delset s = s.multi_selected := by simp [delset, hm]
    rw [hds]
    unfold handle_delete
    rw [if_pos hm]
    rw [deleteIds_eq s.multi_selected s hmn hmm hond]
    simp only [Option.map_some']
    try dsimp only
    cases hL : (s.objlist.filter
        (fun o => !s.multi_selected.contains o.id)).getLast? with
    | some o =>
        refine ⟨_, rfl, rfl, rfl, rfl, ?_, ?_⟩
        · intro o' ho'
          dsimp only at ho'
          rw [hL] at ho'
          cases ho'
          rfl
        · intro he
          dsimp only at he
          rw [he] at hL
          simp at hL
    | none =>
        refine ⟨_, rfl, rfl, rfl, rfl, ?_, ?_⟩
        · intro o' ho'
          dsimp only at ho'
          rw [hL] at ho'
          cases ho'
        · intro _
          rfl

/-- A concrete one-shape state for the C4 counterexample. -/
def c4state : ShapeState :=
  { initS with
    selected := some 1
    objlist := [⟨1, (5, 5), "black"⟩]
    items := [⟨1, "oval", "oval1", ⟨-15, -15, 25, 25⟩, "black"⟩]
    nextId := 2 }

/-- C4 counterexample: deleting the only shape empties the registry but
leaves `selected` at the just-deleted id 1 instead of resetting it to
null. -/
theorem C4_delete_counterexample :
    (handle_delete c4state).map (fun t => (t.objlist, t.selected))
      = some ([], some 1) ∧
    (some 1 : Option Nat) ≠ none := by
  refine ⟨rfl, by decide⟩

/-- A concrete two-shape state with a multi-selection for the C4
witness. -/
def c4wstate : ShapeState :=
  { initS with
    selected := some 2
    multi_selected := [1]
    objlist := [⟨1, (5, 5), "black"⟩, ⟨2, (9, 9), "black"⟩]
    items := [⟨1, "oval", "oval1", ⟨-15, -15, 25, 25⟩, "black"⟩,
              ⟨2, "oval", "oval2", ⟨-11, -11, 29, 29⟩, "black"⟩]
    nextId := 3 }

/-- C4 witness: the amended statement applied at `c4wstate`. -/
theorem C4_delete_witness :
    ∃ s', handle_delete c4wstate = some s' ∧
      s'.objlist = c4wstate.objlist.filter
        (fun o => !(delset c4wstate).contains o.id) ∧
      s'.items = c4wstate.items.filter
        (fun it => !(delset c4wstate).contains it.id) ∧
      s'.multi_selected = c4wstate.multi_selected ∧
      (∀ o, s'.objlist.getLast? = some o → s'.selected = some o.id) ∧
      (s'.objlist = [] → s'.selected = c4wstate.selected) :=
  C4_delete_behavior c4wstate (by decide)
    (fun _ => ⟨by decide, by decide⟩)
    (fun h => absurd h (by decide))

end ShapeC
